import Mathlib

/-!
Verification of the PDF-Signer annotation engine.

This file is a shallow embedding of the repository's annotation engine:
the data model (`src/types/pdf-editor.ts`), the annotation store handlers
(`PDFEditor`, `src/unnamed/part_001`), the pointer interaction handlers of
`PDFViewer` (`src/components/pdf/PDFViewer.tsx`), the signature crop of
`SignatureCanvas.handleSave` (`src/components/pdf/SignatureCanvas.tsx`) and
the bake-out pipeline of `PDFEditor.handleDownload`.

Document-space coordinates are JavaScript numbers in the source; they are
modelled as rationals (`ℚ`).  Page indices are modelled as integers so that
the JavaScript array access `pages[page - 1]` (undefined for `page ≤ 0` and
for `page - 1 ≥ pages.length`) is represented faithfully.  Pixel rasters are
modelled as alpha functions `Nat → Nat → Nat` together with surface bounds.
-/

namespace PDFSigner

/-! ## Data model (src/types/pdf-editor.ts) -/

/-- `Tool` from `src/types/pdf-editor.ts`. -/
inductive Tool where
  | select
  | sign
  | text
  | highlight
deriving DecidableEq, Repr

/-- `SignatureData` from `src/types/pdf-editor.ts`. -/
structure SignatureData where
  id : String
  x : ℚ
  y : ℚ
  width : ℚ
  height : ℚ
  dataUrl : String
  page : Int
deriving DecidableEq, Repr

/-- `TextAnnotation` from `src/types/pdf-editor.ts`. -/
structure TextAnnot where
  id : String
  x : ℚ
  y : ℚ
  text : String
  fontSize : ℚ
  color : String
  page : Int
deriving DecidableEq, Repr

/-- `HighlightAnnotation` from `src/types/pdf-editor.ts`. -/
structure HighlightAnnot where
  id : String
  x : ℚ
  y : ℚ
  width : ℚ
  height : ℚ
  page : Int
deriving DecidableEq, Repr

/-- `Annotation` (the store record) from `src/types/pdf-editor.ts`. -/
structure AnnotationStore where
  signatures : List SignatureData
  texts : List TextAnnot
  highlights : List HighlightAnnot
deriving DecidableEq, Repr

/-! ## Annotation store handlers (PDFEditor, src/unnamed/part_001) -/

/-- A `Partial<SignatureData>` update object: present fields overwrite. -/
structure SigUpdate where
  x : Option ℚ
  y : Option ℚ
  width : Option ℚ
  height : Option ℚ
  dataUrl : Option String
  page : Option Int
deriving DecidableEq, Repr

/-- A `Partial<TextAnnotation>` update object. -/
structure TextUpdate where
  x : Option ℚ
  y : Option ℚ
  text : Option String
  fontSize : Option ℚ
  color : Option String
  page : Option Int
deriving DecidableEq, Repr

/-- The JavaScript spread `{ ...s, ...updates }` for signatures. -/
def applySigUpdate (u : SigUpdate) (s : SignatureData) : SignatureData :=
  { s with
    x := u.x.getD s.x
    y := u.y.getD s.y
    width := u.width.getD s.width
    height := u.height.getD s.height
    dataUrl := u.dataUrl.getD s.dataUrl
    page := u.page.getD s.page }

/-- The JavaScript spread `{ ...t, ...updates }` for text annotations. -/
def applyTextUpdate (u : TextUpdate) (t : TextAnnot) : TextAnnot :=
  { t with
    x := u.x.getD t.x
    y := u.y.getD t.y
    text := u.text.getD t.text
    fontSize := u.fontSize.getD t.fontSize
    color := u.color.getD t.color
    page := u.page.getD t.page }

/-- `handleAddSignature` (part_001, lines 50-55): append with a generated id. -/
def handleAddSignature (st : AnnotationStore) (newId : String) (s : SignatureData) :
    AnnotationStore :=
  { st with signatures := st.signatures ++ [{ s with id := newId }] }

/-- `handleAddText` (part_001, lines 57-63). -/
def handleAddText (st : AnnotationStore) (newId : String) (t : TextAnnot) :
    AnnotationStore :=
  { st with texts := st.texts ++ [{ t with id := newId }] }

/-- `handleAddHighlight` (part_001, lines 65-70). -/
def handleAddHighlight (st : AnnotationStore) (newId : String) (h : HighlightAnnot) :
    AnnotationStore :=
  { st with highlights := st.highlights ++ [{ h with id := newId }] }

/-- `handleUpdateSignature` (part_001, lines 72-77):
`signatures.map(s => s.id === id ? { ...s, ...updates } : s)`. -/
def handleUpdateSignature (st : AnnotationStore) (id : String) (u : SigUpdate) :
    AnnotationStore :=
  { st with signatures := st.signatures.map fun s =>
      if s.id = id then applySigUpdate u s else s }

/-- `handleUpdateText` (part_001, lines 79-84). -/
def handleUpdateText (st : AnnotationStore) (id : String) (u : TextUpdate) :
    AnnotationStore :=
  { st with texts := st.texts.map fun t =>
      if t.id = id then applyTextUpdate u t else t }

/-- `handleDeleteSignature` (part_001, lines 86-91):
`signatures.filter(s => s.id !== id)`. -/
def handleDeleteSignature (st : AnnotationStore) (id : String) : AnnotationStore :=
  { st with signatures := st.signatures.filter fun s => s.id ≠ id }

/-- `handleDeleteText` (part_001, lines 93-98). -/
def handleDeleteText (st : AnnotationStore) (id : String) : AnnotationStore :=
  { st with texts := st.texts.filter fun t => t.id ≠ id }

/-- `handleDeleteHighlight` (part_001, lines 100-105). -/
def handleDeleteHighlight (st : AnnotationStore) (id : String) : AnnotationStore :=
  { st with highlights := st.highlights.filter fun h => h.id ≠ id }

/-- `handleReset` (part_001, lines 107-113). -/
def handleReset (_st : AnnotationStore) : AnnotationStore :=
  { signatures := [], texts := [], highlights := [] }

/-! ## Coordinate space (PDFViewer.getRelativePosition) -/

/-- A point in document space. -/
structure Point where
  x : ℚ
  y : ℚ
deriving DecidableEq, Repr

/-- The container's bounding rectangle origin (`getBoundingClientRect`). -/
structure ContainerRect where
  left : ℚ
  top : ℚ
deriving DecidableEq, Repr

/-- `getRelativePosition` (PDFViewer.tsx, lines 75-84): pointer-to-document
conversion.  `container = none` models an unmeasured container ref
(`containerRef.current` being null), in which case the code returns
`{ x: 0, y: 0 }`. -/
def getRelativePosition (container : Option ContainerRect) (scale : ℚ)
    (clientX clientY : ℚ) : Point :=
  match container with
  | none => ⟨0, 0⟩
  | some rect => ⟨(clientX - rect.left) / scale, (clientY - rect.top) / scale⟩

/-! ## Viewer interaction state (PDFViewer component state) -/

/-- `ResizeHandle` (PDFViewer.tsx, line 31). -/
inductive ResizeHandle where
  | nw
  | ne
  | sw
  | se
deriving DecidableEq, Repr

/-- The `resizing` descriptor (PDFViewer.tsx, line 60). -/
structure Resizing where
  id : String
  handle : ResizeHandle
  startX : ℚ
  startY : ℚ
  startWidth : ℚ
  startHeight : ℚ
  startLeft : ℚ
  startTop : ℚ
deriving DecidableEq, Repr

/-- An in-progress rubber-band rectangle (`tempHighlight`, PDFViewer.tsx line 57). -/
structure TempRect where
  x : ℚ
  y : ℚ
  width : ℚ
  height : ℚ
deriving DecidableEq, Repr

/-- The gesture-relevant component state of `PDFViewer`
(`highlightStart`, `tempHighlight`, `draggingId`, `dragOffset`, `resizing`,
PDFViewer.tsx lines 56-60). -/
structure ViewerState where
  highlightStart : Option Point
  tempHighlight : Option TempRect
  draggingId : Option String
  dragOffset : Point
  resizing : Option Resizing
deriving DecidableEq, Repr

/-- The initial (idle) viewer state: all `useState` initial values. -/
def viewerInit : ViewerState :=
  { highlightStart := none
    tempHighlight := none
    draggingId := none
    dragOffset := ⟨0, 0⟩
    resizing := none }

/-- The editor-level state relevant to the claims
(`PDFEditor` component state, part_001 lines 17-29). -/
structure EditorState where
  fileBytes : List Nat
  currentPage : Int
  scale : ℚ
  activeTool : Tool
  signatureToPlace : Option String
  isProcessing : Bool
  annotations : AnnotationStore
deriving DecidableEq, Repr

/-! ## Pointer handlers (PDFViewer.tsx) -/

/-- `handleClick` (PDFViewer.tsx, lines 86-112) composed with the editor
callbacks `handleAddSignature` / `handleAddText` / `onSignaturePlaced`
(part_001).  `newId` stands for the `generateId()` result. -/
def handleClick (vs : ViewerState) (container : Option ContainerRect)
    (clientX clientY : ℚ) (newId : String) (st : EditorState) : EditorState :=
  if vs.draggingId.isSome ∨ vs.resizing.isSome then st
  else
    let p := getRelativePosition container st.scale clientX clientY
    match st.activeTool, st.signatureToPlace with
    | Tool.sign, some url =>
        { st with
          annotations := handleAddSignature st.annotations newId
            { id := "", x := p.x, y := p.y, width := 150, height := 60,
              dataUrl := url, page := st.currentPage }
          signatureToPlace := none }
    | Tool.text, _ =>
        { st with
          annotations := handleAddText st.annotations newId
            { id := "", x := p.x, y := p.y, text := "", fontSize := 16,
              color := "#1a1a2e", page := st.currentPage } }
    | _, _ => st

/-- `handleMouseDown` (PDFViewer.tsx, lines 114-120). -/
def handleMouseDown (tool : Tool) (vs : ViewerState)
    (container : Option ContainerRect) (scale clientX clientY : ℚ) : ViewerState :=
  if tool = Tool.highlight then
    let p := getRelativePosition container scale clientX clientY
    { vs with
      highlightStart := some p
      tempHighlight := some ⟨p.x, p.y, 0, 0⟩ }
  else vs

/-- The geometry of one resize move: the `switch (resizing.handle)` block of
`handleMouseMove` (PDFViewer.tsx, lines 138-167).  Given the recorded start
geometry and the current document-space pointer `(x, y)`, returns the new
`(x, y, width, height)` passed to `onUpdateSignature`. -/
def resizeStep (r : Resizing) (x y : ℚ) : ℚ × ℚ × ℚ × ℚ :=
  let deltaX := x - r.startX
  let deltaY := y - r.startY
  match r.handle with
  | ResizeHandle.se =>
      (r.startLeft, r.startTop,
       max 50 (r.startWidth + deltaX), max 30 (r.startHeight + deltaY))
  | ResizeHandle.sw =>
      let newWidth := max 50 (r.startWidth - deltaX)
      (r.startLeft + (r.startWidth - newWidth), r.startTop,
       newWidth, max 30 (r.startHeight + deltaY))
  | ResizeHandle.ne =>
      let newHeight := max 30 (r.startHeight - deltaY)
      (r.startLeft, r.startTop + (r.startHeight - newHeight),
       max 50 (r.startWidth + deltaX), newHeight)
  | ResizeHandle.nw =>
      let newWidth := max 50 (r.startWidth - deltaX)
      let newHeight := max 30 (r.startHeight - deltaY)
      (r.startLeft + (r.startWidth - newWidth),
       r.startTop + (r.startHeight - newHeight), newWidth, newHeight)

/-- The rubber-band update at the top of `handleMouseMove` (PDFViewer.tsx,
lines 123-131): when a rubber band is anchored and the highlight tool is
active, set `tempHighlight` to the bounding box of anchor and pointer. -/
def moveHighlightUpd (tool : Tool) (p : Point) (vs : ViewerState) : ViewerState :=
  match vs.highlightStart with
  | some hs =>
      if tool = Tool.highlight then
        let t : TempRect := ⟨min hs.x p.x, min hs.y p.y, |p.x - hs.x|, |p.y - hs.y|⟩
        { vs with tempHighlight := some t }
      else vs
  | none => vs

/-- The resize branch (PDFViewer.tsx lines 133-176, which `return`s after
updating) followed by the drag branch (lines 178-194) of `handleMouseMove`,
acting on the viewer state left by the rubber-band update. -/
def moveDispatch (p : Point) (vs1 : ViewerState) (store : AnnotationStore) :
    ViewerState × AnnotationStore :=
  match vs1.resizing with
  | some r =>
      if (store.signatures.find? fun s => s.id = r.id).isSome then
        let q := resizeStep r p.x p.y
        (vs1, handleUpdateSignature store r.id
          { x := some q.1, y := some q.2.1, width := some q.2.2.1,
            height := some q.2.2.2, dataUrl := none, page := none })
      else (vs1, store)
  | none =>
      -- drag branch (lines 178-194)
      match vs1.draggingId with
      | some did =>
          if (store.signatures.find? fun s => s.id = did).isSome then
            (vs1, handleUpdateSignature store did
              { x := some (p.x - vs1.dragOffset.x),
                y := some (p.y - vs1.dragOffset.y),
                width := none, height := none, dataUrl := none, page := none })
          else if (store.texts.find? fun t => t.id = did).isSome then
            (vs1, handleUpdateText store did
              { x := some (p.x - vs1.dragOffset.x),
                y := some (p.y - vs1.dragOffset.y),
                text := none, fontSize := none, color := none, page := none })
          else (vs1, store)
      | none => (vs1, store)

/-- `handleMouseMove` (PDFViewer.tsx, lines 122-195), with the
`onUpdateSignature` / `onUpdateText` callbacks resolved to the editor's
store handlers.  Returns the new viewer state and the new store. -/
def handleMouseMove (tool : Tool) (container : Option ContainerRect)
    (scale clientX clientY : ℚ) (vs : ViewerState) (store : AnnotationStore) :
    ViewerState × AnnotationStore :=
  let p := getRelativePosition container scale clientX clientY
  -- rubber-band update (lines 123-131)
  moveDispatch p (moveHighlightUpd tool p vs) store

/-- `handleMouseUp` (PDFViewer.tsx, lines 197-208), with `onAddHighlight`
resolved to `handleAddHighlight`.  Also bound to `onMouseLeave` (line 251).
Returns the reset viewer state and the new highlight list. -/
def handleMouseUp (vs : ViewerState) (currentPage : Int) (newId : String)
    (highlights : List HighlightAnnot) : ViewerState × List HighlightAnnot :=
  let highlights' :=
    match vs.tempHighlight with
    | some t =>
        if t.width > 10 ∧ t.height > 5 then
          highlights ++ [{ id := newId, x := t.x, y := t.y, width := t.width,
                           height := t.height, page := currentPage }]
        else highlights
    | none => highlights
  ({ highlightStart := none
     tempHighlight := none
     draggingId := none
     dragOffset := vs.dragOffset
     resizing := none }, highlights')

/-- `startDrag` (PDFViewer.tsx, lines 210-217). -/
def startDrag (tool : Tool) (vs : ViewerState) (container : Option ContainerRect)
    (scale clientX clientY : ℚ) (id : String) (itemX itemY : ℚ) : ViewerState :=
  if tool = Tool.highlight then vs
  else
    let p := getRelativePosition container scale clientX clientY
    { vs with
      draggingId := some id
      dragOffset := ⟨p.x - itemX, p.y - itemY⟩ }

/-- `startResize` (PDFViewer.tsx, lines 219-233). -/
def startResize (vs : ViewerState) (container : Option ContainerRect)
    (scale clientX clientY : ℚ) (id : String) (handle : ResizeHandle)
    (sig : SignatureData) : ViewerState :=
  let p := getRelativePosition container scale clientX clientY
  { vs with
    resizing := some
      { id := id, handle := handle, startX := p.x, startY := p.y,
        startWidth := sig.width, startHeight := sig.height,
        startLeft := sig.x, startTop := sig.y } }

/-! ## Signature crop (SignatureCanvas.handleSave, lines 310-359)

A raster is an alpha function `alpha : Nat → Nat → Nat` (value of
`data[(y * width + x) * 4 + 3]`) on a `w × h` surface. -/

/-- Running bounding-box state: the four scan variables
`minX, minY, maxX, maxY` of `handleSave`. -/
structure BBox where
  minX : Nat
  minY : Nat
  maxX : Nat
  maxY : Nat
deriving DecidableEq, Repr

/-- One conditional update of the scan loop body
(`if (alpha > 0) { minX = Math.min(minX, x); ... }`). -/
def bboxUpd (alpha : Nat → Nat → Nat) (acc : BBox) (p : Nat × Nat) : BBox :=
  if 0 < alpha p.1 p.2 then
    ⟨min acc.minX p.1, min acc.minY p.2, max acc.maxX p.1, max acc.maxY p.2⟩
  else acc

/-- The double scan loop of `handleSave` (lines 320-332): y outer over
`height`, x inner over `width`, starting from
`minX = width, minY = height, maxX = 0, maxY = 0`. -/
def scanBBox (alpha : Nat → Nat → Nat) (w h : Nat) : BBox :=
  (List.range h).foldl
    (fun acc y =>
      (List.range w).foldl (fun acc2 x => bboxUpd alpha acc2 (x, y)) acc)
    ⟨w, h, 0, 0⟩

/-- The padded, clamped crop rectangle (lines 334-339):
`minX = Math.max(0, minX - 20)` etc.  Stored as integers because the
unclamped values are plain JavaScript numbers. -/
structure CropRect where
  minX : Int
  minY : Int
  maxX : Int
  maxY : Int
deriving DecidableEq, Repr

/-- Padding application of `handleSave` (padding = 20). -/
def cropRect (alpha : Nat → Nat → Nat) (w h : Nat) : CropRect :=
  let b := scanBBox alpha w h
  ⟨max 0 ((b.minX : Int) - 20), max 0 ((b.minY : Int) - 20),
   min (w : Int) ((b.maxX : Int) + 20), min (h : Int) ((b.maxY : Int) + 20)⟩

/-- `handleSave` (lines 310-359): gated on the `hasContent` flag
(`if (!canvas || !hasContent) return;`); when it runs it crops the padded
bounding box and produces the output raster region. -/
def handleSave (hasContent : Bool) (alpha : Nat → Nat → Nat) (w h : Nat) :
    Option CropRect :=
  if hasContent then some (cropRect alpha w h) else none

/-- The pixel copy `croppedCtx.drawImage(canvas, minX, minY, cw, ch, 0, 0,
cw, ch)` (lines 351-355): output pixel `(x, y)` is source pixel
`(minX + x, minY + y)`. -/
def croppedAlpha (alpha : Nat → Nat → Nat) (w h : Nat) (x y : Nat) : Nat :=
  alpha ((cropRect alpha w h).minX.toNat + x) ((cropRect alpha w h).minY.toNat + y)

/-- Pixel `(x, y)` is inside the surface and not fully transparent. -/
def Opaque (alpha : Nat → Nat → Nat) (w h x y : Nat) : Prop :=
  x < w ∧ y < h ∧ 0 < alpha x y

instance (alpha : Nat → Nat → Nat) (w h x y : Nat) :
    Decidable (Opaque alpha w h x y) := by
  unfold Opaque; infer_instance

/-! ## Bake-out pipeline (PDFEditor.handleDownload, part_001 lines 115-202) -/

/-- A page's size as reported by `page.getSize()`. -/
structure PageInfo where
  width : ℚ
  height : ℚ
deriving DecidableEq, Repr

/-- The JavaScript array access `pages[p - 1]` (1-based page index):
undefined for `p ≤ 0` and for `p - 1 ≥ pages.length`. -/
def getPage (pages : List PageInfo) (p : Int) : Option PageInfo :=
  if 1 ≤ p then pages.get? (p - 1).toNat else none

/-- A drawing command issued against a page of the output document.
The color and opacity constants are the literal `rgb(...)` arguments of
`handleDownload`. -/
inductive DrawOp where
  | drawImage (img : String) (x y width height : ℚ) (page : Int)
  | drawText (s : String) (x y size : ℚ) (r g b : ℚ) (page : Int)
  | drawRect (x y width height : ℚ) (r g b opacity : ℚ) (page : Int)
deriving DecidableEq, Repr

/-- The drawing command one signature contributes: `none` when its page is
out of range (the `if (!page) continue;`) or its payload fails to decode. -/
def sigOp (decode : String → Option String) (pages : List PageInfo)
    (s : SignatureData) : Option DrawOp :=
  (getPage pages s.page).bind fun pg =>
    (decode s.dataUrl).map fun img =>
      DrawOp.drawImage img s.x (pg.height - s.y - s.height) s.width s.height s.page

/-- The drawing command one text annotation contributes: `none` when its
content is empty after trimming (the `if (!text.text.trim()) continue;`) or
its page is out of range. -/
def textOp (pages : List PageInfo) (t : TextAnnot) : Option DrawOp :=
  if t.text.trim = "" then none
  else
    (getPage pages t.page).map fun pg =>
      DrawOp.drawText t.text t.x (pg.height - t.y - t.fontSize) t.fontSize
        (1/10) (1/10) (18/100) t.page

/-- The drawing command one highlight contributes. -/
def hlOp (pages : List PageInfo) (h : HighlightAnnot) : Option DrawOp :=
  (getPage pages h.page).map fun pg =>
    DrawOp.drawRect h.x (pg.height - h.y - h.height) h.width h.height
      (98/100) (8/10) (8/100) (4/10) h.page

/-- The signature loop of `handleDownload` (lines 124-140).  `decode`
models `fetch(dataUrl) → embedPng`; a decode failure throws, which aborts
the whole export (caught by the surrounding `try`), hence `none`. -/
def bakeSignatures (decode : String → Option String) (pages : List PageInfo) :
    List SignatureData → Option (List DrawOp)
  | [] => some []
  | s :: rest =>
      match getPage pages s.page with
      | none => bakeSignatures decode pages rest
      | some pg =>
          match decode s.dataUrl with
          | none => none
          | some img =>
              (bakeSignatures decode pages rest).map fun ops =>
                DrawOp.drawImage img s.x (pg.height - s.y - s.height)
                  s.width s.height s.page :: ops

/-- The text loop of `handleDownload` (lines 143-157). -/
def bakeTexts (pages : List PageInfo) : List TextAnnot → List DrawOp
  | [] => []
  | t :: rest =>
      if t.text.trim = "" then bakeTexts pages rest
      else
        match getPage pages t.page with
        | none => bakeTexts pages rest
        | some pg =>
            DrawOp.drawText t.text t.x (pg.height - t.y - t.fontSize) t.fontSize
              (1/10) (1/10) (18/100) t.page :: bakeTexts pages rest

/-- The highlight loop of `handleDownload` (lines 160-174). -/
def bakeHighlights (pages : List PageInfo) : List HighlightAnnot → List DrawOp
  | [] => []
  | h :: rest =>
      match getPage pages h.page with
      | none => bakeHighlights pages rest
      | some pg =>
          DrawOp.drawRect h.x (pg.height - h.y - h.height) h.width h.height
            (98/100) (8/10) (8/100) (4/10) h.page :: bakeHighlights pages rest

/-- The whole drawing phase of `handleDownload`: signatures, then texts,
then highlights, against a fresh document loaded from the input bytes. -/
def handleDownloadOps (decode : String → Option String) (pages : List PageInfo)
    (anns : AnnotationStore) : Option (List DrawOp) :=
  (bakeSignatures decode pages anns.signatures).map fun sigOps =>
    sigOps ++ bakeTexts pages anns.texts ++ bakeHighlights pages anns.highlights

/-- `handleDownload` (part_001, lines 115-202) as a state transformer.
`load` models `PDFDocument.load` on a copy of the file bytes (producing the
page list of a fresh document).  The result is the state while the export
is in flight, the state after the `finally`, and the export output
(`none` models the caught failure path). -/
def handleDownload (load : List Nat → List PageInfo)
    (decode : String → Option String) (st : EditorState) :
    EditorState × EditorState × Option (List DrawOp) :=
  let during := { st with isProcessing := true }
  let out := handleDownloadOps decode (load st.fileBytes) st.annotations
  (during, { during with isProcessing := false }, out)

/-! ## Reachable interaction states (single-pointer event streams) -/

/-- The rubber-band gesture is active (either of its two fields is set). -/
def hlActive (vs : ViewerState) : Prop :=
  vs.highlightStart.isSome = true ∨ vs.tempHighlight.isSome = true

/-- A drag gesture is active. -/
def dragActive (vs : ViewerState) : Prop := vs.draggingId.isSome = true

/-- A resize gesture is active. -/
def resActive (vs : ViewerState) : Prop := vs.resizing.isSome = true

/-- At most one of the three gestures is active. -/
def gestureMutex (vs : ViewerState) : Prop :=
  ¬(hlActive vs ∧ dragActive vs) ∧ ¬(hlActive vs ∧ resActive vs) ∧
    ¬(dragActive vs ∧ resActive vs)

/-- No gesture is active at all. -/
def gestureFree (vs : ViewerState) : Prop :=
  ¬hlActive vs ∧ ¬dragActive vs ∧ ¬resActive vs

/-- Viewer states reachable from the idle state by single-pointer event
streams, paired with whether the pointer is currently pressed.  A press
event (`mousedown` on the container, on an annotation — `startDrag` — or on
a resize handle — `startResize`) can only be delivered while the pointer is
not already pressed; `mouseup` and `mouseleave` both run `handleMouseUp`.
The tool, container offset, zoom and store may change arbitrarily between
events. -/
inductive Reach : ViewerState → Bool → Prop where
  | init : Reach viewerInit false
  | downContainer (tool : Tool) (container : Option ContainerRect)
      (scale cx cy : ℚ) {vs : ViewerState} :
      Reach vs false → Reach (handleMouseDown tool vs container scale cx cy) true
  | downItem (tool : Tool) (container : Option ContainerRect)
      (scale cx cy : ℚ) (id : String) (itemX itemY : ℚ) {vs : ViewerState} :
      Reach vs false →
      Reach (startDrag tool vs container scale cx cy id itemX itemY) true
  | downHandle (container : Option ContainerRect) (scale cx cy : ℚ)
      (id : String) (handle : ResizeHandle) (sig : SignatureData)
      {vs : ViewerState} :
      Reach vs false →
      Reach (startResize vs container scale cx cy id handle sig) true
  | moveEv (tool : Tool) (container : Option ContainerRect) (scale cx cy : ℚ)
      (store : AnnotationStore) {vs : ViewerState} {b : Bool} :
      Reach vs b →
      Reach (handleMouseMove tool container scale cx cy vs store).1 b
  | upEv (page : Int) (newId : String) (hls : List HighlightAnnot)
      {vs : ViewerState} {b : Bool} :
      Reach vs b → Reach (handleMouseUp vs page newId hls).1 false
  | leaveEv (page : Int) (newId : String) (hls : List HighlightAnnot)
      {vs : ViewerState} {b : Bool} :
      Reach vs b → Reach (handleMouseUp vs page newId hls).1 false

/-- The example raster of the spec's crop test: non-transparent pixels
exactly in `[10, 90] × [10, 40]`. -/
def alphaEx (x y : Nat) : Nat :=
  if 10 ≤ x ∧ x ≤ 90 ∧ 10 ≤ y ∧ y ≤ 40 then 255 else 0

/-- All pixels of a `w × h` surface in the scan order of `handleSave`
(row-major, y outer). -/
def pixList (w : Nat) : Nat → List (Nat × Nat)
  | 0 => []
  | n + 1 => pixList w n ++ (List.range w).map fun x => (x, n)

/-! ## Theorems -/

/-- If `id` is not among the projections of `l`, the conditional rewrite
map leaves `l` unchanged. -/
theorem map_ite_eq_self {α : Type} (f : α → String) (g : α → α) (l : List α)
    (id : String) (h : id ∉ l.map f) :
    (l.map fun a => if f a = id then g a else a) = l := by
  induction l with
  | nil => rfl
  | cons a t ih =>
      simp only [List.map_cons, List.mem_cons] at h ⊢
      push_neg at h
      rw [if_neg (fun hc => h.1 hc.symm), ih h.2]

/-- If `id` is not among the projections of `l`, filtering out `id` leaves
`l` unchanged. -/
theorem filter_ne_eq_self {α : Type} (f : α → String) (l : List α)
    (id : String) (h : id ∉ l.map f) :
    (l.filter fun a => f a ≠ id) = l := by
  induction l with
  | nil => rfl
  | cons a t ih =>
      simp only [List.map_cons, List.mem_cons] at h
      push_neg at h
      rw [List.filter_cons_of_pos, ih h.2]
      simpa using fun hc => h.1 hc.symm

/-- The resize/drag dispatch of `handleMouseMove` never changes the viewer
state: only the store side does. -/
theorem moveDispatch_fst (p : Point) (vs1 : ViewerState) (store : AnnotationStore) :
    (moveDispatch p vs1 store).1 = vs1 := by
  obtain ⟨hsF, tH, dI, dO, rz⟩ := vs1
  cases rz with
  | none =>
      cases dI with
      | none => rfl
      | some did =>
          dsimp only [moveDispatch]
          split
          · rfl
          · split <;> rfl
  | some r =>
      dsimp only [moveDispatch]
      split <;> rfl

/-- C2: for every pointer position, container origin and zoom scale, the
pointer-to-document conversion `getRelativePosition` returns exactly
`((clientX - left) / scale, (clientY - top) / scale)` when the container is
available, and `(0, 0)` when it has not been measured; it is a pure
function of these arguments. -/
theorem getRelativePosition_spec (rect : ContainerRect)
    (scale clientX clientY : ℚ) :
    getRelativePosition (some rect) scale clientX clientY =
      ⟨(clientX - rect.left) / scale, (clientY - rect.top) / scale⟩ ∧
    getRelativePosition none scale clientX clientY = ⟨0, 0⟩ :=
  ⟨rfl, rfl⟩

/-- C9: updating or deleting an id absent from the store leaves the entire
store exactly unchanged (the handlers are total functions, so no error is
possible). -/
theorem store_noop_spec (st : AnnotationStore) (id : String)
    (us : SigUpdate) (ut : TextUpdate) :
    (id ∉ st.signatures.map SignatureData.id →
       handleUpdateSignature st id us = st ∧ handleDeleteSignature st id = st) ∧
    (id ∉ st.texts.map TextAnnot.id →
       handleUpdateText st id ut = st ∧ handleDeleteText st id = st) ∧
    (id ∉ st.highlights.map HighlightAnnot.id →
       handleDeleteHighlight st id = st) := by
  refine ⟨fun h => ⟨?_, ?_⟩, fun h => ⟨?_, ?_⟩, fun h => ?_⟩
  · unfold handleUpdateSignature
    rw [map_ite_eq_self SignatureData.id _ _ _ h]
  · unfold handleDeleteSignature
    rw [filter_ne_eq_self SignatureData.id _ _ h]
  · unfold handleUpdateText
    rw [map_ite_eq_self TextAnnot.id _ _ _ h]
  · unfold handleDeleteText
    rw [filter_ne_eq_self TextAnnot.id _ _ h]
  · unfold handleDeleteHighlight
    rw [filter_ne_eq_self HighlightAnnot.id _ _ h]

/-- Witness for C9 at a concrete store and a concrete absent id. -/
theorem store_noop_spec_witness :
    ("zz" ∉ ([⟨"a1", 0, 0, 1, 1, "u", 1⟩] : List SignatureData).map
        SignatureData.id) ∧
    ("zz" ∉ ([⟨"t1", 0, 0, "hi", 16, "#", 1⟩] : List TextAnnot).map
        TextAnnot.id) ∧
    ("zz" ∉ ([⟨"h1", 0, 0, 1, 1, 1⟩] : List HighlightAnnot).map
        HighlightAnnot.id) ∧
    handleUpdateSignature
        ⟨[⟨"a1", 0, 0, 1, 1, "u", 1⟩], [⟨"t1", 0, 0, "hi", 16, "#", 1⟩],
          [⟨"h1", 0, 0, 1, 1, 1⟩]⟩ "zz"
        ⟨some 5, none, none, none, none, none⟩ =
      ⟨[⟨"a1", 0, 0, 1, 1, "u", 1⟩], [⟨"t1", 0, 0, "hi", 16, "#", 1⟩],
        [⟨"h1", 0, 0, 1, 1, 1⟩]⟩ ∧
    handleDeleteHighlight
        ⟨[⟨"a1", 0, 0, 1, 1, "u", 1⟩], [⟨"t1", 0, 0, "hi", 16, "#", 1⟩],
          [⟨"h1", 0, 0, 1, 1, 1⟩]⟩ "zz" =
      ⟨[⟨"a1", 0, 0, 1, 1, "u", 1⟩], [⟨"t1", 0, 0, "hi", 16, "#", 1⟩],
        [⟨"h1", 0, 0, 1, 1, 1⟩]⟩ :=
  ⟨by decide, by decide, by decide,
   ((store_noop_spec _ "zz" ⟨some 5, none, none, none, none, none⟩
      ⟨none, none, none, none, none, none⟩).1 (by decide)).1,
   ((store_noop_spec _ "zz" ⟨some 5, none, none, none, none, none⟩
      ⟨none, none, none, none, none, none⟩).2.2 (by decide))⟩

/-- C10: `handleDownload` never mutates the annotation store, the current
page, the zoom scale, the active tool, the pending stamp or the file bytes;
whether the export succeeds or fails, only the processing flag is set for
the duration and restored to `false` afterwards, and the output is a fresh
document computed from the input bytes. -/
theorem download_frame_spec (load : List Nat → List PageInfo)
    (decode : String → Option String) (st : EditorState) :
    (handleDownload load decode st).2.1.annotations = st.annotations ∧
    (handleDownload load decode st).2.1.currentPage = st.currentPage ∧
    (handleDownload load decode st).2.1.scale = st.scale ∧
    (handleDownload load decode st).2.1.activeTool = st.activeTool ∧
    (handleDownload load decode st).2.1.signatureToPlace = st.signatureToPlace ∧
    (handleDownload load decode st).2.1.fileBytes = st.fileBytes ∧
    (handleDownload load decode st).2.1.isProcessing = false ∧
    (handleDownload load decode st).1 = { st with isProcessing := true } ∧
    (handleDownload load decode st).2.2 =
      handleDownloadOps decode (load st.fileBytes) st.annotations :=
  ⟨rfl, rfl, rfl, rfl, rfl, rfl, rfl, rfl, rfl⟩

/-- C3: a click while the sign tool is active, a pending stamp is present
and neither a drag nor a resize is active appends exactly one signature at
the click's document-space coordinates with width 150 and height 60 on the
current page and clears the pending stamp; if a drag or resize is active
the click is ignored entirely, and without a pending stamp no signature is
created. -/
theorem placement_click_spec (vs : ViewerState) (container : Option ContainerRect)
    (clientX clientY : ℚ) (newId : String) (st : EditorState) :
    (∀ url, vs.draggingId = none → vs.resizing = none →
       st.activeTool = Tool.sign → st.signatureToPlace = some url →
       (handleClick vs container clientX clientY newId st).annotations.signatures =
         st.annotations.signatures ++
           [{ id := newId,
              x := (getRelativePosition container st.scale clientX clientY).x,
              y := (getRelativePosition container st.scale clientX clientY).y,
              width := 150, height := 60, dataUrl := url,
              page := st.currentPage }] ∧
       (handleClick vs container clientX clientY newId st).annotations.texts =
         st.annotations.texts ∧
       (handleClick vs container clientX clientY newId st).annotations.highlights =
         st.annotations.highlights ∧
       (handleClick vs container clientX clientY newId st).signatureToPlace =
         none) ∧
    (vs.draggingId.isSome = true ∨ vs.resizing.isSome = true →
       handleClick vs container clientX clientY newId st = st) ∧
    (st.signatureToPlace = none →
       (handleClick vs container clientX clientY newId st).annotations.signatures =
         st.annotations.signatures) := by
  refine ⟨fun url hd hr ht hs => ?_, fun h => ?_, fun hs => ?_⟩
  · simp [handleClick, hd, hr, ht, hs, handleAddSignature]
  · simp [handleClick, h]
  · unfold handleClick
    by_cases h : vs.draggingId.isSome = true ∨ vs.resizing.isSome = true
    · simp [h]
    · rw [if_neg h, hs]
      rcases hA : st.activeTool <;> simp [handleAddText]

/-- Witness for C3: a concrete placement click appends the expected
signature, and a click during a drag is ignored. -/
theorem placement_click_spec_witness :
    (handleClick viewerInit (some ⟨0, 0⟩) 30 40 "s1"
        ⟨[], 2, 1, Tool.sign, some "urlA", false, ⟨[], [], []⟩⟩).annotations.signatures =
      [{ id := "s1", x := 30, y := 40, width := 150, height := 60,
         dataUrl := "urlA", page := 2 }] ∧
    (handleClick ⟨none, none, some "d", ⟨0, 0⟩, none⟩ (some ⟨0, 0⟩) 30 40 "s1"
        ⟨[], 2, 1, Tool.sign, some "urlA", false, ⟨[], [], []⟩⟩) =
      ⟨[], 2, 1, Tool.sign, some "urlA", false, ⟨[], [], []⟩⟩ := by
  constructor
  · have h := ((placement_click_spec viewerInit (some ⟨0, 0⟩) 30 40 "s1"
      ⟨[], 2, 1, Tool.sign, some "urlA", false, ⟨[], [], []⟩⟩).1 "urlA"
      rfl rfl rfl rfl).1
    rw [h]; norm_num [getRelativePosition]
  · exact (placement_click_spec ⟨none, none, some "d", ⟨0, 0⟩, none⟩
      (some ⟨0, 0⟩) 30 40 "s1"
      ⟨[], 2, 1, Tool.sign, some "urlA", false, ⟨[], [], []⟩⟩).2.1
      (Or.inl rfl)

/-- C4: one resize move recomputes width as `max 50 (startWidth ± deltaX)`
and height as `max 30 (startHeight ± deltaY)` according to the corner, and
repositions so the corner opposite the dragged handle keeps exactly its
original coordinates, clamp engaged or not; `handleMouseMove` applies
exactly this geometry through `handleUpdateSignature`. -/
theorem resize_geometry_spec (r : Resizing) (x y : ℚ) :
    (r.handle = ResizeHandle.se →
       resizeStep r x y =
         (r.startLeft, r.startTop, max 50 (r.startWidth + (x - r.startX)),
          max 30 (r.startHeight + (y - r.startY)))) ∧
    (r.handle = ResizeHandle.sw →
       (resizeStep r x y).2.2.1 = max 50 (r.startWidth - (x - r.startX)) ∧
       (resizeStep r x y).2.2.2 = max 30 (r.startHeight + (y - r.startY)) ∧
       (resizeStep r x y).1 + (resizeStep r x y).2.2.1 =
         r.startLeft + r.startWidth ∧
       (resizeStep r x y).2.1 = r.startTop) ∧
    (r.handle = ResizeHandle.ne →
       (resizeStep r x y).2.2.1 = max 50 (r.startWidth + (x - r.startX)) ∧
       (resizeStep r x y).2.2.2 = max 30 (r.startHeight - (y - r.startY)) ∧
       (resizeStep r x y).1 = r.startLeft ∧
       (resizeStep r x y).2.1 + (resizeStep r x y).2.2.2 =
         r.startTop + r.startHeight) ∧
    (r.handle = ResizeHandle.nw →
       (resizeStep r x y).2.2.1 = max 50 (r.startWidth - (x - r.startX)) ∧
       (resizeStep r x y).2.2.2 = max 30 (r.startHeight - (y - r.startY)) ∧
       (resizeStep r x y).1 + (resizeStep r x y).2.2.1 =
         r.startLeft + r.startWidth ∧
       (resizeStep r x y).2.1 + (resizeStep r x y).2.2.2 =
         r.startTop + r.startHeight) ∧
    (∀ (tool : Tool) (container : Option ContainerRect) (scale cx cy : ℚ)
        (vs : ViewerState) (store : AnnotationStore),
       vs.highlightStart = none → vs.resizing = some r →
       (store.signatures.find? fun s => s.id = r.id).isSome = true →
       (handleMouseMove tool container scale cx cy vs store).2 =
         handleUpdateSignature store r.id
           { x := some (resizeStep r
               (getRelativePosition container scale cx cy).x
               (getRelativePosition container scale cx cy).y).1,
             y := some (resizeStep r
               (getRelativePosition container scale cx cy).x
               (getRelativePosition container scale cx cy).y).2.1,
             width := some (resizeStep r
               (getRelativePosition container scale cx cy).x
               (getRelativePosition container scale cx cy).y).2.2.1,
             height := some (resizeStep r
               (getRelativePosition container scale cx cy).x
               (getRelativePosition container scale cx cy).y).2.2.2,
             dataUrl := none, page := none }) := by
  obtain ⟨rid, rh, sX, sY, sW, sH, sL, sT⟩ := r
  refine ⟨fun h => ?_, fun h => ?_, fun h => ?_, fun h => ?_,
    fun tool container scale cx cy vs store hhs hr hfind => ?_⟩
  · subst h; rfl
  · subst h
    refine ⟨rfl, rfl, ?_, rfl⟩
    simp only [resizeStep]
    ring
  · subst h
    refine ⟨rfl, rfl, rfl, ?_⟩
    simp only [resizeStep]
    ring
  · subst h
    refine ⟨rfl, ?_, ?_, ?_⟩
    · rfl
    · simp only [resizeStep]
      ring
    · simp only [resizeStep]
      ring
  · simp [handleMouseMove, moveDispatch, moveHighlightUpd, hhs, hr, hfind]

/-- Witness for C4: resizing from `se` by `(+20, +10)` on a 150×60
signature at `(100, 100)` gives 170×70 with the `nw` corner unmoved, and a
move that would request width 10 clamps to width 50. -/
theorem resize_geometry_spec_witness :
    (⟨"s1", ResizeHandle.se, 0, 0, 150, 60, 100, 100⟩ : Resizing).handle =
      ResizeHandle.se ∧
    resizeStep ⟨"s1", ResizeHandle.se, 0, 0, 150, 60, 100, 100⟩ 20 10 =
      (100, 100, 170, 70) ∧
    resizeStep ⟨"s1", ResizeHandle.se, 0, 0, 150, 60, 100, 100⟩ (-140) 10 =
      (100, 100, 50, 70) := by
  refine ⟨rfl, ?_, ?_⟩
  · have h := (resize_geometry_spec
      ⟨"s1", ResizeHandle.se, 0, 0, 150, 60, 100, 100⟩ 20 10).1 rfl
    rw [h]; norm_num
  · have h := (resize_geometry_spec
      ⟨"s1", ResizeHandle.se, 0, 0, 150, 60, 100, 100⟩ (-140) 10).1 rfl
    rw [h]; norm_num

/-- C5: while the highlight tool is active each move sets the in-progress
rectangle to the axis-aligned bounding box of the press anchor and the
current point, and a release commits exactly one highlight with that
rectangle on the current page if and only if its width exceeds 10 and its
height exceeds 5; otherwise the highlight list is unchanged. -/
theorem rubber_band_spec :
    (∀ (vs : ViewerState) (hs : Point) (container : Option ContainerRect)
        (scale cx cy : ℚ) (store : AnnotationStore),
       vs.highlightStart = some hs →
       (handleMouseMove Tool.highlight container scale cx cy vs store).1.tempHighlight =
         some ⟨min hs.x (getRelativePosition container scale cx cy).x,
               min hs.y (getRelativePosition container scale cx cy).y,
               |(getRelativePosition container scale cx cy).x - hs.x|,
               |(getRelativePosition container scale cx cy).y - hs.y|⟩) ∧
    (∀ (vs : ViewerState) (t : TempRect) (page : Int) (newId : String)
        (hls : List HighlightAnnot),
       vs.tempHighlight = some t →
       (handleMouseUp vs page newId hls).2 =
         (if t.width > 10 ∧ t.height > 5 then
            hls ++ [{ id := newId, x := t.x, y := t.y, width := t.width,
                      height := t.height, page := page }]
          else hls)) ∧
    (∀ (vs : ViewerState) (page : Int) (newId : String)
        (hls : List HighlightAnnot),
       vs.tempHighlight = none → (handleMouseUp vs page newId hls).2 = hls) := by
  refine ⟨fun vs hs container scale cx cy store h => ?_,
    fun vs t page newId hls h => ?_, fun vs page newId hls h => ?_⟩
  · rw [show (handleMouseMove Tool.highlight container scale cx cy vs store).1 =
        moveHighlightUpd Tool.highlight
          (getRelativePosition container scale cx cy) vs from
      moveDispatch_fst _ _ _]
    simp [moveHighlightUpd, h]
  · simp [handleMouseUp, h]
  · simp [handleMouseUp, h]

/-- Witness for C5: a concrete move produces the bounding box `(5,5,11,6)`;
releasing an 11×6 rectangle commits exactly one highlight, releasing a 9×4
rectangle commits none. -/
theorem rubber_band_spec_witness :
    (handleMouseMove Tool.highlight (some ⟨0, 0⟩) 1 16 11
        ⟨some ⟨5, 5⟩, some ⟨5, 5, 0, 0⟩, none, ⟨0, 0⟩, none⟩
        ⟨[], [], []⟩).1.tempHighlight = some ⟨5, 5, 11, 6⟩ ∧
    (handleMouseUp ⟨none, some ⟨0, 0, 11, 6⟩, none, ⟨0, 0⟩, none⟩ 1 "h1" []).2 =
      [{ id := "h1", x := 0, y := 0, width := 11, height := 6, page := 1 }] ∧
    (handleMouseUp ⟨none, some ⟨0, 0, 9, 4⟩, none, ⟨0, 0⟩, none⟩ 1 "h1" []).2 =
      [] := by
  refine ⟨?_, ?_, ?_⟩
  · have h := rubber_band_spec.1
      ⟨some ⟨5, 5⟩, some ⟨5, 5, 0, 0⟩, none, ⟨0, 0⟩, none⟩ ⟨5, 5⟩
      (some ⟨0, 0⟩) 1 16 11 ⟨[], [], []⟩ rfl
    rw [h]
    norm_num [getRelativePosition]
  · have h := rubber_band_spec.2.1
      ⟨none, some ⟨0, 0, 11, 6⟩, none, ⟨0, 0⟩, none⟩ ⟨0, 0, 11, 6⟩ 1 "h1" [] rfl
    rw [h]; norm_num
  · have h := rubber_band_spec.2.1
      ⟨none, some ⟨0, 0, 9, 4⟩, none, ⟨0, 0⟩, none⟩ ⟨0, 0, 9, 4⟩ 1 "h1" [] rfl
    rw [h]; norm_num

/-- If the signature loop succeeds, its output is exactly the per-signature
contributions in order. -/
theorem bakeSignatures_eq_filterMap (decode : String → Option String)
    (pages : List PageInfo) (l : List SignatureData) (ops : List DrawOp)
    (h : bakeSignatures decode pages l = some ops) :
    ops = l.filterMap (sigOp decode pages) := by
  induction l generalizing ops with
  | nil =>
      simp only [bakeSignatures, Option.some.injEq] at h
      simp [h.symm]
  | cons s rest ih =>
      unfold bakeSignatures at h
      cases hp : getPage pages s.page with
      | none =>
          rw [hp] at h
          rw [ih ops h, List.filterMap_cons]
          simp [sigOp, hp]
      | some pg =>
          rw [hp] at h
          cases hd : decode s.dataUrl with
          | none => rw [hd] at h; exact absurd h (by simp)
          | some img =>
              rw [hd] at h
              cases hrest : bakeSignatures decode pages rest with
              | none => rw [hrest] at h; exact absurd h (by simp)
              | some ops' =>
                  rw [hrest] at h
                  simp only [Option.map_some', Option.some.injEq] at h
                  rw [← h, List.filterMap_cons]
                  simp [sigOp, hp, hd, ih ops' hrest]

/-- If every signature whose page resolves also decodes, the signature loop
succeeds and produces the per-signature contributions. -/
theorem bakeSignatures_some (decode : String → Option String)
    (pages : List PageInfo) (l : List SignatureData)
    (h : ∀ s ∈ l, (getPage pages s.page).isSome = true →
      (decode s.dataUrl).isSome = true) :
    bakeSignatures decode pages l = some (l.filterMap (sigOp decode pages)) := by
  induction l with
  | nil => rfl
  | cons s rest ih =>
      have hrest := ih fun a ha hpg => h a (List.mem_cons_of_mem _ ha) hpg
      unfold bakeSignatures
      cases hp : getPage pages s.page with
      | none =>
          rw [hrest, List.filterMap_cons]
          simp [sigOp, hp]
      | some pg =>
          have hd := h s (List.mem_cons_self _ _) (by simp [hp])
          cases hdc : decode s.dataUrl with
          | none => rw [hdc] at hd; simp at hd
          | some img =>
              rw [hrest, List.filterMap_cons]
              simp [sigOp, hp, hdc]

/-- The text loop is exactly the per-text contributions in order. -/
theorem bakeTexts_eq_filterMap (pages : List PageInfo) (l : List TextAnnot) :
    bakeTexts pages l = l.filterMap (textOp pages) := by
  induction l with
  | nil => rfl
  | cons t rest ih =>
      unfold bakeTexts
      rw [List.filterMap_cons]
      by_cases htr : t.text.trim = ""
      · simp [textOp, htr, ih]
      · cases hp : getPage pages t.page with
        | none => simp [textOp, htr, hp, ih]
        | some pg => simp [textOp, htr, hp, ih]

/-- The highlight loop is exactly the per-highlight contributions in order. -/
theorem bakeHighlights_eq_filterMap (pages : List PageInfo)
    (l : List HighlightAnnot) :
    bakeHighlights pages l = l.filterMap (hlOp pages) := by
  induction l with
  | nil => rfl
  | cons a rest ih =>
      unfold bakeHighlights
      rw [List.filterMap_cons]
      cases hp : getPage pages a.page with
      | none => simp [hlOp, hp, ih]
      | some pg => simp [hlOp, hp, ih]

/-- C1: every annotation baked during export is drawn at `x = annotation.x`
and at `y = pageHeight - annotation.y - annotation.height` for signatures
and highlights, and `y = pageHeight - annotation.y - annotation.fontSize`
for text annotations; in particular a signature with `x = 100`, `y = 100`,
`width = 150`, `height = 60` on a page of height `H` is drawn at
`y = H - 160`. -/
theorem bake_draw_coordinates (pages : List PageInfo)
    (decode : String → Option String) (anns : AnnotationStore)
    (ops : List DrawOp) :
    (handleDownloadOps decode pages anns = some ops →
       ops = anns.signatures.filterMap (sigOp decode pages) ++
         anns.texts.filterMap (textOp pages) ++
         anns.highlights.filterMap (hlOp pages)) ∧
    (∀ (s : SignatureData) (pg : PageInfo) (img : String),
       getPage pages s.page = some pg → decode s.dataUrl = some img →
       sigOp decode pages s = some (DrawOp.drawImage img s.x
         (pg.height - s.y - s.height) s.width s.height s.page)) ∧
    (∀ (t : TextAnnot) (pg : PageInfo), t.text.trim ≠ "" →
       getPage pages t.page = some pg →
       textOp pages t = some (DrawOp.drawText t.text t.x
         (pg.height - t.y - t.fontSize) t.fontSize
         (1/10) (1/10) (18/100) t.page)) ∧
    (∀ (a : HighlightAnnot) (pg : PageInfo), getPage pages a.page = some pg →
       hlOp pages a = some (DrawOp.drawRect a.x (pg.height - a.y - a.height)
         a.width a.height (98/100) (8/10) (8/100) (4/10) a.page)) ∧
    (∀ (s : SignatureData) (pg : PageInfo) (img : String) (H : ℚ),
       s.x = 100 → s.y = 100 → s.width = 150 → s.height = 60 →
       pg.height = H → getPage pages s.page = some pg →
       decode s.dataUrl = some img →
       sigOp decode pages s =
         some (DrawOp.drawImage img 100 (H - 160) 150 60 s.page)) := by
  refine ⟨fun h => ?_, fun s pg img hp hd => ?_, fun t pg htr hp => ?_,
    fun a pg hp => ?_, fun s pg img H hx hy hw hh hpg hp hd => ?_⟩
  · unfold handleDownloadOps at h
    cases hs : bakeSignatures decode pages anns.signatures with
    | none => rw [hs] at h; exact absurd h (by simp)
    | some so =>
        rw [hs] at h
        simp only [Option.map_some', Option.some.injEq] at h
        rw [← h, bakeSignatures_eq_filterMap decode pages _ so hs,
          bakeTexts_eq_filterMap, bakeHighlights_eq_filterMap]
  · simp [sigOp, hp, hd]
  · simp [textOp, htr, hp]
  · simp [hlOp, hp]
  · simp only [sigOp, hp, Option.some_bind', hd, Option.map_some',
      Option.some.injEq]
    rw [hx, hy, hw, hh, hpg]
    congr 1
    ring

/-- Witness for C1: a concrete signature at `(100, 100, 150, 60)` on a page
of height 800 bakes to an image drawn at `y = 640 = 800 - 160`. -/
theorem bake_draw_coordinates_witness :
    getPage [⟨600, 800⟩] 1 = some ⟨600, 800⟩ ∧
    sigOp (fun u => some u) [⟨600, 800⟩]
        ⟨"s1", 100, 100, 150, 60, "png", 1⟩ =
      some (DrawOp.drawImage "png" 100 640 150 60 1) := by
  refine ⟨rfl, ?_⟩
  have h := (bake_draw_coordinates [⟨600, 800⟩] (fun u => some u)
      ⟨[], [], []⟩ []).2.2.2.2 ⟨"s1", 100, 100, 150, 60, "png", 1⟩
      ⟨600, 800⟩ "png" 800 rfl rfl rfl rfl rfl rfl rfl
  rw [h]
  norm_num

/-- C8: during bake-out every annotation whose 1-based page index has no
page in the document is silently skipped, every text annotation whose
content trims to empty is skipped, and all remaining annotations are
processed with the export succeeding. -/
theorem bake_skip_spec (pages : List PageInfo)
    (decode : String → Option String) (anns : AnnotationStore)
    (hdec : ∀ s ∈ anns.signatures, (getPage pages s.page).isSome = true →
      (decode s.dataUrl).isSome = true) :
    handleDownloadOps decode pages anns =
      some (anns.signatures.filterMap (sigOp decode pages) ++
        anns.texts.filterMap (textOp pages) ++
        anns.highlights.filterMap (hlOp pages)) ∧
    (∀ s : SignatureData, getPage pages s.page = none →
       sigOp decode pages s = none) ∧
    (∀ t : TextAnnot, getPage pages t.page = none → textOp pages t = none) ∧
    (∀ t : TextAnnot, t.text.trim = "" → textOp pages t = none) ∧
    (∀ a : HighlightAnnot, getPage pages a.page = none →
       hlOp pages a = none) := by
  refine ⟨?_, fun s hp => ?_, fun t hp => ?_, fun t htr => ?_, fun a hp => ?_⟩
  · unfold handleDownloadOps
    rw [bakeSignatures_some decode pages _ hdec]
    simp only [Option.map_some', Option.some.injEq]
    rw [bakeTexts_eq_filterMap, bakeHighlights_eq_filterMap]
  · simp [sigOp, hp]
  · unfold textOp
    by_cases htr : t.text.trim = "" <;> simp [htr, hp]
  · simp [textOp, htr]
  · simp [hlOp, hp]

/-- Witness for C8: a signature referencing page 5 of a one-page document
is skipped while a highlight on page 1 is still baked, and the export
succeeds. -/
theorem bake_skip_spec_witness :
    (∀ s ∈ ([⟨"a", 1, 2, 3, 4, "u", 5⟩] : List SignatureData),
       (getPage [(⟨600, 800⟩ : PageInfo)] s.page).isSome = true →
       ((fun _ => none : String → Option String) s.dataUrl).isSome = true) ∧
    handleDownloadOps (fun _ => none) [⟨600, 800⟩]
        ⟨[⟨"a", 1, 2, 3, 4, "u", 5⟩], [], [⟨"h", 1, 1, 2, 2, 1⟩]⟩ =
      some [DrawOp.drawRect 1 797 2 2 (98/100) (8/10) (8/100) (4/10) 1] := by
  have hdec : ∀ s ∈ ([⟨"a", 1, 2, 3, 4, "u", 5⟩] : List SignatureData),
      (getPage [(⟨600, 800⟩ : PageInfo)] s.page).isSome = true →
      ((fun _ => none : String → Option String) s.dataUrl).isSome = true := by
    intro s hs hp
    simp only [List.mem_singleton] at hs
    rw [hs] at hp
    exact absurd hp (by decide)
  refine ⟨hdec, ?_⟩
  have h := (bake_skip_spec [⟨600, 800⟩] (fun _ => none)
      ⟨[⟨"a", 1, 2, 3, 4, "u", 5⟩], [], [⟨"h", 1, 1, 2, 2, 1⟩]⟩ hdec).1
  rw [h]
  simp only [List.filterMap_cons, List.filterMap_nil]
  norm_num [sigOp, hlOp, getPage]

/-- A gesture-free state satisfies the mutual-exclusion invariant. -/
theorem gestureMutex_of_free (vs : ViewerState) (h : gestureFree vs) :
    gestureMutex vs :=
  ⟨fun hc => h.1 hc.1, fun hc => h.1 hc.1, fun hc => h.2.1 hc.1⟩

/-- The viewer-state component of `handleMouseMove` is exactly the
rubber-band update. -/
theorem handleMouseMove_fst (tool : Tool) (container : Option ContainerRect)
    (scale cx cy : ℚ) (vs : ViewerState) (store : AnnotationStore) :
    (handleMouseMove tool container scale cx cy vs store).1 =
      moveHighlightUpd tool (getRelativePosition container scale cx cy) vs :=
  moveDispatch_fst _ _ _

/-- A release (`mouseup` or `mouseleave`) always leaves a gesture-free
viewer state. -/
theorem handleMouseUp_fst_free (vs : ViewerState) (page : Int) (newId : String)
    (hls : List HighlightAnnot) : gestureFree (handleMouseUp vs page newId hls).1 := by
  refine ⟨fun hc => ?_, fun hc => ?_, fun hc => ?_⟩
  · rcases hc with hc | hc <;> simp [handleMouseUp, hlActive] at hc
  · simp [handleMouseUp, dragActive] at hc
  · simp [handleMouseUp, resActive] at hc

/-- C7: in every interaction state reachable from the idle state by
single-pointer event streams, at most one of the drag descriptor, the
resize descriptor and the highlight rubber-band is active, and every
pointer-up or pointer-leave event resets all three to inactive. -/
theorem gesture_mutex_spec :
    (∀ (vs : ViewerState) (b : Bool), Reach vs b → gestureMutex vs) ∧
    (∀ (vs : ViewerState) (page : Int) (newId : String)
        (hls : List HighlightAnnot),
       gestureFree (handleMouseUp vs page newId hls).1) := by
  have key : ∀ (vs : ViewerState) (b : Bool), Reach vs b →
      (b = false → gestureFree vs) ∧ gestureMutex vs := by
    intro vs b h
    induction h with
    | init =>
        have hfree : gestureFree viewerInit := by
          refine ⟨fun hc => ?_, fun hc => ?_, fun hc => ?_⟩
          · rcases hc with hc | hc <;> simp [viewerInit, hlActive] at hc
          · simp [viewerInit, dragActive] at hc
          · simp [viewerInit, resActive] at hc
        exact ⟨fun _ => hfree, gestureMutex_of_free _ hfree⟩
    | @downContainer tool container scale cx cy v hr ih =>
        have hfree := ih.1 rfl
        refine ⟨fun hb => by simp at hb, ?_⟩
        by_cases ht : tool = Tool.highlight
        · simp only [handleMouseDown, if_pos ht]
          exact ⟨fun hc => hfree.2.1 hc.2, fun hc => hfree.2.2 hc.2,
            fun hc => hfree.2.1 hc.1⟩
        · simp only [handleMouseDown, if_neg ht]
          exact gestureMutex_of_free _ hfree
    | @downItem tool container scale cx cy id itemX itemY v hr ih =>
        have hfree := ih.1 rfl
        refine ⟨fun hb => by simp at hb, ?_⟩
        by_cases ht : tool = Tool.highlight
        · simp only [startDrag, if_pos ht]
          exact gestureMutex_of_free _ hfree
        · simp only [startDrag, if_neg ht]
          exact ⟨fun hc => hfree.1 hc.1, fun hc => hfree.1 hc.1,
            fun hc => hfree.2.2 hc.2⟩
    | @downHandle container scale cx cy id handle sig v hr ih =>
        have hfree := ih.1 rfl
        refine ⟨fun hb => by simp at hb, ?_⟩
        exact ⟨fun hc => hfree.1 hc.1, fun hc => hfree.1 hc.1,
          fun hc => hfree.2.1 hc.1⟩
    | @moveEv tool container scale cx cy store v bb hr ih =>
        rw [handleMouseMove_fst]
        constructor
        · intro hb
          have hfree := ih.1 hb
          cases hhs : v.highlightStart with
          | none => simpa [moveHighlightUpd, hhs] using hfree
          | some hs =>
              exact absurd (Or.inl (by rw [hhs]; rfl)) hfree.1
        · have hm := ih.2
          cases hhs : v.highlightStart with
          | none => simpa [moveHighlightUpd, hhs] using hm
          | some hs =>
              by_cases ht : tool = Tool.highlight
              · simp only [moveHighlightUpd, hhs, if_pos ht]
                have hhl : hlActive v := Or.inl (by rw [hhs]; rfl)
                exact ⟨fun hc => hm.1 ⟨hhl, hc.2⟩, fun hc => hm.2.1 ⟨hhl, hc.2⟩,
                  fun hc => hm.1 ⟨hhl, hc.1⟩⟩
              · simpa [moveHighlightUpd, hhs, if_neg ht] using hm
    | @upEv page newId hls v bb hr ih =>
        exact ⟨fun _ => handleMouseUp_fst_free _ _ _ _,
          gestureMutex_of_free _ (handleMouseUp_fst_free _ _ _ _)⟩
    | @leaveEv page newId hls v bb hr ih =>
        exact ⟨fun _ => handleMouseUp_fst_free _ _ _ _,
          gestureMutex_of_free _ (handleMouseUp_fst_free _ _ _ _)⟩
  exact ⟨fun vs b h => (key vs b h).2,
    fun vs page newId hls => handleMouseUp_fst_free vs page newId hls⟩

/-- Witness for C7 at a concrete reachable state: pressing the highlight
tool on the container from idle yields a state satisfying the invariant. -/
theorem gesture_mutex_spec_witness :
    gestureMutex (handleMouseDown Tool.highlight viewerInit (some ⟨0, 0⟩) 1 3 4) :=
  gesture_mutex_spec.1 _ true
    (Reach.downContainer Tool.highlight (some ⟨0, 0⟩) 1 3 4 Reach.init)

/-! ### Fold characterization for the crop scan -/

/-- A conditional-min fold never exceeds its initial value. -/
theorem foldl_cond_min_le {c : Nat × Nat → Prop} [DecidablePred c]
    (k : Nat × Nat → Nat) (l : List (Nat × Nat)) (m : Nat) :
    l.foldl (fun acc p => if c p then min acc (k p) else acc) m ≤ m := by
  induction l generalizing m with
  | nil => exact le_refl m
  | cons p t ih =>
      rw [List.foldl_cons]
      refine le_trans (ih _) ?_
      split
      · exact min_le_left _ _
      · exact le_refl m

/-- A conditional-min fold is bounded by the key of any satisfying member. -/
theorem foldl_cond_min_le_of_mem {c : Nat × Nat → Prop} [DecidablePred c]
    (k : Nat × Nat → Nat) (l : List (Nat × Nat)) :
    ∀ (m : Nat) (q : Nat × Nat), q ∈ l → c q →
      l.foldl (fun acc p => if c p then min acc (k p) else acc) m ≤ k q := by
  induction l with
  | nil => intro m q hq _; cases hq
  | cons p t ih =>
      intro m q hq hc
      rw [List.foldl_cons]
      rcases List.mem_cons.mp hq with rfl | hmem
      · refine le_trans (foldl_cond_min_le k t _) ?_
        rw [if_pos hc]
        exact min_le_right _ _
      · exact ih _ q hmem hc

/-- A conditional-min fold either keeps its initial value or returns the
key of some satisfying member. -/
theorem foldl_cond_min_attained {c : Nat × Nat → Prop} [DecidablePred c]
    (k : Nat × Nat → Nat) (l : List (Nat × Nat)) (m : Nat) :
    l.foldl (fun acc p => if c p then min acc (k p) else acc) m = m ∨
      ∃ q ∈ l, c q ∧
        l.foldl (fun acc p => if c p then min acc (k p) else acc) m = k q := by
  induction l generalizing m with
  | nil => exact Or.inl rfl
  | cons p t ih =>
      rw [List.foldl_cons]
      by_cases hc : c p
      · rw [if_pos hc]
        rcases ih (min m (k p)) with heq | ⟨q, hqmem, hqc, hqeq⟩
        · rcases le_total m (k p) with hle | hle
          · exact Or.inl (heq.trans (min_eq_left hle))
          · exact Or.inr ⟨p, List.mem_cons_self _ _, hc,
              heq.trans (min_eq_right hle)⟩
        · exact Or.inr ⟨q, List.mem_cons_of_mem _ hqmem, hqc, hqeq⟩
      · rw [if_neg hc]
        rcases ih m with heq | ⟨q, hqmem, hqc, hqeq⟩
        · exact Or.inl heq
        · exact Or.inr ⟨q, List.mem_cons_of_mem _ hqmem, hqc, hqeq⟩

/-- A conditional-max fold never drops below its initial value. -/
theorem foldl_cond_max_ge {c : Nat × Nat → Prop} [DecidablePred c]
    (k : Nat × Nat → Nat) (l : List (Nat × Nat)) (m : Nat) :
    m ≤ l.foldl (fun acc p => if c p then max acc (k p) else acc) m := by
  induction l generalizing m with
  | nil => exact le_refl m
  | cons p t ih =>
      rw [List.foldl_cons]
      refine le_trans ?_ (ih _)
      split
      · exact le_max_left _ _
      · exact le_refl m

/-- A conditional-max fold dominates the key of any satisfying member. -/
theorem foldl_cond_max_ge_of_mem {c : Nat × Nat → Prop} [DecidablePred c]
    (k : Nat × Nat → Nat) (l : List (Nat × Nat)) :
    ∀ (m : Nat) (q : Nat × Nat), q ∈ l → c q →
      k q ≤ l.foldl (fun acc p => if c p then max acc (k p) else acc) m := by
  induction l with
  | nil => intro m q hq _; cases hq
  | cons p t ih =>
      intro m q hq hc
      rw [List.foldl_cons]
      rcases List.mem_cons.mp hq with rfl | hmem
      · refine le_trans ?_ (foldl_cond_max_ge k t _)
        rw [if_pos hc]
        exact le_max_right _ _
      · exact ih _ q hmem hc

/-- A conditional-max fold either keeps its initial value or returns the
key of some satisfying member. -/
theorem foldl_cond_max_attained {c : Nat × Nat → Prop} [DecidablePred c]
    (k : Nat × Nat → Nat) (l : List (Nat × Nat)) (m : Nat) :
    l.foldl (fun acc p => if c p then max acc (k p) else acc) m = m ∨
      ∃ q ∈ l, c q ∧
        l.foldl (fun acc p => if c p then max acc (k p) else acc) m = k q := by
  induction l generalizing m with
  | nil => exact Or.inl rfl
  | cons p t ih =>
      rw [List.foldl_cons]
      by_cases hc : c p
      · rw [if_pos hc]
        rcases ih (max m (k p)) with heq | ⟨q, hqmem, hqc, hqeq⟩
        · rcases le_total (k p) m with hle | hle
          · exact Or.inl (heq.trans (max_eq_left hle))
          · exact Or.inr ⟨p, List.mem_cons_self _ _, hc,
              heq.trans (max_eq_right hle)⟩
        · exact Or.inr ⟨q, List.mem_cons_of_mem _ hqmem, hqc, hqeq⟩
      · rw [if_neg hc]
        rcases ih m with heq | ⟨q, hqmem, hqc, hqeq⟩
        · exact Or.inl heq
        · exact Or.inr ⟨q, List.mem_cons_of_mem _ hqmem, hqc, hqeq⟩

/-- The four components of the bounding-box fold evolve independently. -/
theorem bboxFold_minX (alpha : Nat → Nat → Nat) (l : List (Nat × Nat))
    (acc : BBox) :
    (l.foldl (bboxUpd alpha) acc).minX =
      l.foldl (fun m p => if 0 < alpha p.1 p.2 then min m p.1 else m) acc.minX := by
  induction l generalizing acc with
  | nil => rfl
  | cons p t ih =>
      rw [List.foldl_cons, List.foldl_cons, ih]
      congr 1
      unfold bboxUpd
      split <;> rfl

/-- Component lemma for `minY`. -/
theorem bboxFold_minY (alpha : Nat → Nat → Nat) (l : List (Nat × Nat))
    (acc : BBox) :
    (l.foldl (bboxUpd alpha) acc).minY =
      l.foldl (fun m p => if 0 < alpha p.1 p.2 then min m p.2 else m) acc.minY := by
  induction l generalizing acc with
  | nil => rfl
  | cons p t ih =>
      rw [List.foldl_cons, List.foldl_cons, ih]
      congr 1
      unfold bboxUpd
      split <;> rfl

/-- Component lemma for `maxX`. -/
theorem bboxFold_maxX (alpha : Nat → Nat → Nat) (l : List (Nat × Nat))
    (acc : BBox) :
    (l.foldl (bboxUpd alpha) acc).maxX =
      l.foldl (fun m p => if 0 < alpha p.1 p.2 then max m p.1 else m) acc.maxX := by
  induction l generalizing acc with
  | nil => rfl
  | cons p t ih =>
      rw [List.foldl_cons, List.foldl_cons, ih]
      congr 1
      unfold bboxUpd
      split <;> rfl

/-- Component lemma for `maxY`. -/
theorem bboxFold_maxY (alpha : Nat → Nat → Nat) (l : List (Nat × Nat))
    (acc : BBox) :
    (l.foldl (bboxUpd alpha) acc).maxY =
      l.foldl (fun m p => if 0 < alpha p.1 p.2 then max m p.2 else m) acc.maxY := by
  induction l generalizing acc with
  | nil => rfl
  | cons p t ih =>
      rw [List.foldl_cons, List.foldl_cons, ih]
      congr 1
      unfold bboxUpd
      split <;> rfl

/-- The nested scan loop equals one fold over all pixels in scan order. -/
theorem scanBBox_eq_foldl (alpha : Nat → Nat → Nat) (w h : Nat) :
    scanBBox alpha w h = (pixList w h).foldl (bboxUpd alpha) ⟨w, h, 0, 0⟩ := by
  suffices hgen : ∀ (n : Nat) (acc : BBox),
      (List.range n).foldl
        (fun acc y =>
          (List.range w).foldl (fun acc2 x => bboxUpd alpha acc2 (x, y)) acc)
        acc =
      (pixList w n).foldl (bboxUpd alpha) acc from hgen h _
  intro n
  induction n with
  | zero => intro acc; rfl
  | succ n ih =>
      intro acc
      rw [List.range_succ, List.foldl_append, ih,
        show pixList w (n + 1) =
          pixList w n ++ (List.range w).map (fun x => (x, n)) from rfl,
        List.foldl_append, List.foldl_map]
      rfl

/-- Membership in the pixel enumeration is exactly being in bounds. -/
theorem mem_pixList (w h x y : Nat) :
    (x, y) ∈ pixList w h ↔ x < w ∧ y < h := by
  induction h with
  | zero => simp [pixList]
  | succ n ih =>
      simp only [pixList, List.mem_append, ih, List.mem_map, List.mem_range]
      constructor
      · rintro (⟨hx, hy⟩ | ⟨a, ha, heq⟩)
        · exact ⟨hx, Nat.lt_succ_of_lt hy⟩
        · injection heq with h1 h2
          subst h1; subst h2
          exact ⟨ha, Nat.lt_succ_self _⟩
      · rintro ⟨hx, hy⟩
        rcases Nat.lt_succ_iff_lt_or_eq.mp hy with hlt | rfl
        · exact Or.inl ⟨hx, hlt⟩
        · exact Or.inr ⟨x, hx, rfl⟩

/-- The scan's bounding box bounds every opaque pixel. -/
theorem scanBBox_bounds (alpha : Nat → Nat → Nat) (w h x y : Nat)
    (hop : Opaque alpha w h x y) :
    (scanBBox alpha w h).minX ≤ x ∧ (scanBBox alpha w h).minY ≤ y ∧
      x ≤ (scanBBox alpha w h).maxX ∧ y ≤ (scanBBox alpha w h).maxY := by
  obtain ⟨hx, hy, hal⟩ := hop
  have hmem : (x, y) ∈ pixList w h := (mem_pixList w h x y).mpr ⟨hx, hy⟩
  rw [scanBBox_eq_foldl, bboxFold_minX, bboxFold_minY, bboxFold_maxX,
    bboxFold_maxY]
  exact ⟨@foldl_cond_min_le_of_mem (fun p => 0 < alpha p.1 p.2) _
      (fun p => p.1) (pixList w h) _ (x, y) hmem hal,
    @foldl_cond_min_le_of_mem (fun p => 0 < alpha p.1 p.2) _
      (fun p => p.2) (pixList w h) _ (x, y) hmem hal,
    @foldl_cond_max_ge_of_mem (fun p => 0 < alpha p.1 p.2) _
      (fun p => p.1) (pixList w h) _ (x, y) hmem hal,
    @foldl_cond_max_ge_of_mem (fun p => 0 < alpha p.1 p.2) _
      (fun p => p.2) (pixList w h) _ (x, y) hmem hal⟩

/-- If any opaque pixel exists, each side of the scan's bounding box is
attained by an opaque pixel. -/
theorem scanBBox_attained (alpha : Nat → Nat → Nat) (w h : Nat)
    (hex : ∃ p : Nat × Nat, Opaque alpha w h p.1 p.2) :
    (∃ y', Opaque alpha w h (scanBBox alpha w h).minX y') ∧
    (∃ x', Opaque alpha w h x' (scanBBox alpha w h).minY) ∧
    (∃ y', Opaque alpha w h (scanBBox alpha w h).maxX y') ∧
    (∃ x', Opaque alpha w h x' (scanBBox alpha w h).maxY) := by
  obtain ⟨⟨x0, y0⟩, hx0, hy0, hal0⟩ := hex
  have hbounds := scanBBox_bounds alpha w h x0 y0 ⟨hx0, hy0, hal0⟩
  refine ⟨?_, ?_, ?_, ?_⟩
  · rcases @foldl_cond_min_attained (fun p : Nat × Nat => 0 < alpha p.1 p.2) _
        (fun p : Nat × Nat => p.1) (pixList w h) w with heq | ⟨q, hqm, hqc, hqe⟩
    · have hlt : (scanBBox alpha w h).minX ≤ x0 := hbounds.1
      rw [scanBBox_eq_foldl, bboxFold_minX] at hlt
      rw [heq] at hlt
      exact absurd hx0 (by omega)
    · have hqb := (mem_pixList w h q.1 q.2).mp hqm
      refine ⟨q.2, ?_, hqb.2, ?_⟩
      · rw [scanBBox_eq_foldl, bboxFold_minX, hqe]
        exact hqb.1
      · rw [scanBBox_eq_foldl, bboxFold_minX, hqe]
        exact hqc
  · rcases @foldl_cond_min_attained (fun p : Nat × Nat => 0 < alpha p.1 p.2) _
        (fun p : Nat × Nat => p.2) (pixList w h) h with heq | ⟨q, hqm, hqc, hqe⟩
    · have hlt : (scanBBox alpha w h).minY ≤ y0 := hbounds.2.1
      rw [scanBBox_eq_foldl, bboxFold_minY] at hlt
      rw [heq] at hlt
      exact absurd hy0 (by omega)
    · have hqb := (mem_pixList w h q.1 q.2).mp hqm
      refine ⟨q.1, hqb.1, ?_, ?_⟩
      · rw [scanBBox_eq_foldl, bboxFold_minY, hqe]
        exact hqb.2
      · rw [scanBBox_eq_foldl, bboxFold_minY, hqe]
        exact hqc
  · rcases @foldl_cond_max_attained (fun p : Nat × Nat => 0 < alpha p.1 p.2) _
        (fun p : Nat × Nat => p.1) (pixList w h) 0 with heq | ⟨q, hqm, hqc, hqe⟩
    · have hge : x0 ≤ (scanBBox alpha w h).maxX := hbounds.2.2.1
      rw [scanBBox_eq_foldl, bboxFold_maxX] at hge ⊢
      rw [heq] at hge ⊢
      have hx00 : x0 = 0 := Nat.le_zero.mp hge
      subst hx00
      exact ⟨y0, hx0, hy0, hal0⟩
    · have hqb := (mem_pixList w h q.1 q.2).mp hqm
      refine ⟨q.2, ?_, hqb.2, ?_⟩
      · rw [scanBBox_eq_foldl, bboxFold_maxX, hqe]
        exact hqb.1
      · rw [scanBBox_eq_foldl, bboxFold_maxX, hqe]
        exact hqc
  · rcases @foldl_cond_max_attained (fun p : Nat × Nat => 0 < alpha p.1 p.2) _
        (fun p : Nat × Nat => p.2) (pixList w h) 0 with heq | ⟨q, hqm, hqc, hqe⟩
    · have hge : y0 ≤ (scanBBox alpha w h).maxY := hbounds.2.2.2
      rw [scanBBox_eq_foldl, bboxFold_maxY] at hge ⊢
      rw [heq] at hge ⊢
      have hy00 : y0 = 0 := Nat.le_zero.mp hge
      subst hy00
      exact ⟨x0, hx0, hy0, hal0⟩
    · have hqb := (mem_pixList w h q.1 q.2).mp hqm
      refine ⟨q.1, hqb.1, ?_, ?_⟩
      · rw [scanBBox_eq_foldl, bboxFold_maxY, hqe]
        exact hqb.2
      · rw [scanBBox_eq_foldl, bboxFold_maxY, hqe]
        exact hqc

/-- C6: for a raster with at least one non-transparent pixel, `handleSave`
computes the bounding box of all non-transparent pixels, expands it by
exactly 20 pixels per side clamped to the surface bounds, and copies
exactly that sub-region; with the `hasContent` gate unset (which the save
flow keeps in sync with content existing) no output is produced. -/
theorem signature_crop_spec (alpha : Nat → Nat → Nat) (w h : Nat)
    (hex : ∃ p : Nat × Nat, Opaque alpha w h p.1 p.2) :
    (∀ x y, Opaque alpha w h x y →
       (scanBBox alpha w h).minX ≤ x ∧ (scanBBox alpha w h).minY ≤ y ∧
       x ≤ (scanBBox alpha w h).maxX ∧ y ≤ (scanBBox alpha w h).maxY) ∧
    ((∃ y', Opaque alpha w h (scanBBox alpha w h).minX y') ∧
     (∃ x', Opaque alpha w h x' (scanBBox alpha w h).minY) ∧
     (∃ y', Opaque alpha w h (scanBBox alpha w h).maxX y') ∧
     (∃ x', Opaque alpha w h x' (scanBBox alpha w h).maxY)) ∧
    handleSave true alpha w h = some
      ⟨max 0 (((scanBBox alpha w h).minX : Int) - 20),
       max 0 (((scanBBox alpha w h).minY : Int) - 20),
       min (w : Int) (((scanBBox alpha w h).maxX : Int) + 20),
       min (h : Int) (((scanBBox alpha w h).maxY : Int) + 20)⟩ ∧
    handleSave false alpha w h = none ∧
    (∀ x y, croppedAlpha alpha w h x y =
       alpha ((cropRect alpha w h).minX.toNat + x)
         ((cropRect alpha w h).minY.toNat + y)) :=
  ⟨fun x y hop => scanBBox_bounds alpha w h x y hop,
   scanBBox_attained alpha w h hex, rfl, rfl, fun _ _ => rfl⟩

/-- Witness for C6: the spec's example — pixels bounded by `[10,10]-[90,40]`
on a 200×200 surface crop to exactly `[0,0]-[110,60]`. -/
theorem signature_crop_spec_witness :
    (∃ p : Nat × Nat, Opaque alphaEx 200 200 p.1 p.2) ∧
    handleSave true alphaEx 200 200 = some ⟨0, 0, 110, 60⟩ ∧
    handleSave false alphaEx 200 200 = none := by
  have hex : ∃ p : Nat × Nat, Opaque alphaEx 200 200 p.1 p.2 :=
    ⟨(10, 10), by decide⟩
  have hmain := signature_crop_spec alphaEx 200 200 hex
  have hcond : ∀ x y, 0 < alphaEx x y →
      10 ≤ x ∧ x ≤ 90 ∧ 10 ≤ y ∧ y ≤ 40 := by
    intro x y hxy
    unfold alphaEx at hxy
    split at hxy
    · assumption
    · exact absurd hxy (by omega)
  have hminX : (scanBBox alphaEx 200 200).minX = 10 := by
    obtain ⟨y', hy'⟩ := hmain.2.1.1
    have h10 := (hcond _ _ hy'.2.2).1
    have hle := (hmain.1 10 10 (by decide)).1
    omega
  have hminY : (scanBBox alphaEx 200 200).minY = 10 := by
    obtain ⟨x', hx'⟩ := hmain.2.1.2.1
    have h10 := (hcond _ _ hx'.2.2).2.2.1
    have hle := (hmain.1 10 10 (by decide)).2.1
    omega
  have hmaxX : (scanBBox alphaEx 200 200).maxX = 90 := by
    obtain ⟨y', hy'⟩ := hmain.2.1.2.2.1
    have h90 := (hcond _ _ hy'.2.2).2.1
    have hge := (hmain.1 90 40 (by decide)).2.2.1
    omega
  have hmaxY : (scanBBox alphaEx 200 200).maxY = 40 := by
    obtain ⟨x', hx'⟩ := hmain.2.1.2.2.2
    have h40 := (hcond _ _ hx'.2.2).2.2.2
    have hge := (hmain.1 90 40 (by decide)).2.2.2
    omega
  refine ⟨hex, ?_, hmain.2.2.2.1⟩
  rw [hmain.2.2.1, hminX, hminY, hmaxX, hmaxY]
  decide

end PDFSigner
